import Mathlib

/-! walk: ToolBar (src/pkg/walk/toolbar.go)

A shallow embedding of the toolbar widget of the walk GUI library and the
properties its specification states about it.

The Go code talks to a native toolbar control through `SendMessage`. Here the
state behind the window handle is an explicit record (`Window`): the ordered
array of button command ids, the visibility flag, the window style and the log
of every message sent together with the value the control returned. What the
control answers is not decided by the toolbar code; it is a parameter (`Env`),
so every theorem holds for every way the control may accept or reject commands.

Go run-time panics (indexing the action list out of range, dereferencing a nil
image list) are the outer `Option` of a result: `none` is a panic.
-/

namespace Walk

/-! ## Errors -/

/-- An os.Error value; the nil error is `Option.none`. -/
abbrev Error := String

/-- Modelled from the spec: newError (error.go is not among the sources) builds
the descriptive error value that carries the given message. -/
def newError (message : String) : Error := message

/-! ## Constants of the platform headers

The packages walk/winapi, walk/winapi/comctl32 and walk/winapi/user32 are not
among the sources. The specification (section 6) asks that the native command
set be reproduced bit-compatibly with the platform toolbar-control API, so the
values are those of the platform headers. -/

/-- Modelled from the spec: FALSE of the platform API (winapi is missing). -/
def FALSE : Nat := 0

/-- Modelled from the spec: WM_NOTIFY of winuser.h (user32 is missing). -/
def WM_NOTIFY : Nat := 0x004E

/-- Modelled from the spec: NM_CLICK of commctrl.h, NM_FIRST - 2 as an unsigned
32-bit notification code (comctl32 is missing). -/
def NM_CLICK : Nat := 4294967294

/-- Modelled from the spec: CCS_NORESIZE of commctrl.h (comctl32 is missing). -/
def CCS_NORESIZE : Nat := 0x04

/-- Modelled from the spec: CCS_NODIVIDER of commctrl.h (comctl32 is missing). -/
def CCS_NODIVIDER : Nat := 0x40

/-- Modelled from the spec: CCS_VERT of commctrl.h (comctl32 is missing); the
style bit of the Vertical orientation. -/
def CCS_VERT : Nat := 0x80

/-- Modelled from the spec: TBSTYLE_WRAPABLE of commctrl.h (comctl32 is missing). -/
def TBSTYLE_WRAPABLE : Nat := 0x200

/-- Modelled from the spec: TBSTATE_CHECKED of commctrl.h (comctl32 is missing). -/
def TBSTATE_CHECKED : Nat := 0x01

/-- Modelled from the spec: TBSTATE_ENABLED of commctrl.h (comctl32 is missing). -/
def TBSTATE_ENABLED : Nat := 0x04

/-- Modelled from the spec: TBSTATE_WRAP of commctrl.h (comctl32 is missing). -/
def TBSTATE_WRAP : Nat := 0x20

/-- Modelled from the spec: BTNS_CHECK of commctrl.h (comctl32 is missing). -/
def BTNS_CHECK : Nat := 0x02

/-- Modelled from the spec: BTNS_GROUP of commctrl.h (comctl32 is missing). -/
def BTNS_GROUP : Nat := 0x04

/-- Modelled from the spec: BTNS_AUTOSIZE of commctrl.h (comctl32 is missing). -/
def BTNS_AUTOSIZE : Nat := 0x10

/-- Modelled from the spec: TBIF_IMAGE of commctrl.h (comctl32 is missing). -/
def TBIF_IMAGE : Nat := 0x01

/-- Modelled from the spec: TBIF_TEXT of commctrl.h (comctl32 is missing). -/
def TBIF_TEXT : Nat := 0x02

/-- Modelled from the spec: TBIF_STATE of commctrl.h (comctl32 is missing). -/
def TBIF_STATE : Nat := 0x04

/-- Modelled from the spec: TBIF_STYLE of commctrl.h (comctl32 is missing). -/
def TBIF_STYLE : Nat := 0x08

/-- Modelled from the spec: MAKELONG of the platform API (winapi is missing):
the low word and the high word of a 32-bit value, both 16 bits wide. -/
def MAKELONG (lo hi : Nat) : Nat := lo % 65536 + (hi % 65536) * 65536

/-! ## Data model -/

/-- A bitmap, known by its handle. -/
abbrev Bitmap := Nat

/-- Modelled from the spec: Action (action.go is not among the sources): the
identifier (a uint16), the display text, the optional image and the four
boolean flags the toolbar reads. -/
structure Action where
  id : Nat
  text : String
  image : Option Bitmap
  enabled : Bool
  checked : Bool
  checkable : Bool
  exclusive : Bool
deriving DecidableEq, Repr

/-- Modelled from the spec: Action.Text (action.go is missing). -/
def Action.Text (action : Action) : String := action.text

/-- Modelled from the spec: ImageList (imagelist.go is not among the sources):
the handle of the strip and the images it holds, in index order. -/
structure ImageList where
  hIml : Nat
  images : List Bitmap
deriving DecidableEq, Repr

/-- Modelled from the spec: Size (the width and the height of a size hint). -/
structure Size where
  Width : Int
  Height : Int
deriving DecidableEq, Repr

/-- Modelled from the spec: TBBUTTON of commctrl.h (comctl32 is missing), the
descriptor of a button to add. The zero value of IString is the null pointer
(`none`); otherwise it points to the UTF-16 copy of the given text. -/
structure TBBUTTON where
  IBitmap : Int
  IdCommand : Int
  FsState : Nat
  FsStyle : Nat
  IString : Option String
deriving DecidableEq, Repr

/-- Modelled from the spec: TBBUTTONINFO of commctrl.h (comctl32 is missing),
the descriptor of a button update. -/
structure TBBUTTONINFO where
  CbSize : Nat
  DwMask : Nat
  IImage : Int
  FsState : Nat
  FsStyle : Nat
  PszText : Option String
deriving DecidableEq, Repr

/-- Modelled from the spec: NMMOUSE of commctrl.h (comctl32 is missing): the
notification code of its header and the item the mouse event refers to. -/
structure NMMOUSE where
  Code : Nat
  DwItemSpec : Nat
deriving DecidableEq, Repr

/-- The toolbar messages the code sends. -/
inductive Msg where
  | TB_SETBUTTONWIDTH
  | TB_SETIMAGELIST
  | TB_BUTTONSTRUCTSIZE
  | TB_ADDBUTTONS
  | TB_AUTOSIZE
  | TB_DELETEBUTTON
  | TB_SETBUTTONINFO
deriving DecidableEq, Repr

/-- The lParam of a message: a plain number, or what the pointer passed as
lParam points to. -/
inductive LParam where
  | value (v : Nat)
  | tbbuttons (buttons : List TBBUTTON)
  | tbbuttoninfo (info : TBBUTTONINFO)
deriving DecidableEq, Repr

/-- One recorded SendMessage: what was sent and what the control returned. -/
structure Call where
  msg : Msg
  wParam : Nat
  lParam : LParam
  result : Nat
deriving DecidableEq, Repr

/-- The state behind a window handle: the window style, the visibility, the
command id of the button at each position of the native button array, and the
messages sent so far, oldest first. -/
structure Window where
  style : Nat
  visible : Bool
  buttons : List Int
  calls : List Call
deriving DecidableEq, Repr

/-- The platform, as far as the toolbar code depends on it: what the control
returns for a message given everything sent before, whether the image strip
takes one more image, and the sizes unsafe.Sizeof reports. -/
structure Env where
  send : List Call → Msg → Nat → LParam → Nat
  addMaskedOk : ImageList → Bitmap → Bool
  sizeofTBBUTTON : Nat
  sizeofTBBUTTONINFO : Nat

/-- The ToolBar struct. `hWnd` stands for the embedded WidgetBase and
`actions` for the contents of the ActionList. `changedHandlers` is the part of
the actions the toolbar changes: the ids of the actions in whose
changed-handler list this toolbar is registered, most recent first. -/
structure ToolBar where
  hWnd : Window
  imageList : Option ImageList
  actions : List Action
  minButtonWidth : Nat
  maxButtonWidth : Nat
  changedHandlers : List Nat
deriving DecidableEq, Repr

/-! ## The native control and the collaborators -/

/-- Modelled from the spec: what the control returns for a message. The
platform decides (`Env.send`), except that TB_DELETEBUTTON fails when there is
no button at the index. -/
def sendResult (env : Env) (w : Window) (msg : Msg) (wParam : Nat) (lParam : LParam) : Nat :=
  match msg with
  | .TB_DELETEBUTTON =>
    if wParam < w.buttons.length then env.send w.calls msg wParam lParam else 0
  | _ => env.send w.calls msg wParam lParam

/-- Modelled from the spec: the effect of an accepted message on the native
button array, as the platform defines it: TB_ADDBUTTONS appends the first
wParam buttons of the array lParam points to after the last button,
TB_DELETEBUTTON removes the button at position wParam, no other message sent
by the toolbar adds, removes or moves a button. -/
def applyMsg (buttons : List Int) (msg : Msg) (wParam : Nat) (lParam : LParam) : List Int :=
  match msg, lParam with
  | .TB_ADDBUTTONS, .tbbuttons bs => buttons ++ (bs.take wParam).map (fun b => b.IdCommand)
  | .TB_DELETEBUTTON, _ => buttons.eraseIdx wParam
  | _, _ => buttons

/-- Modelled from the spec: SendMessage of user32 (missing). The control
answers, a rejected message (result 0) changes nothing, and the call is
recorded with its result. -/
def SendMessage (env : Env) (w : Window) (msg : Msg) (wParam : Nat) (lParam : LParam) :
    Nat × Window :=
  let r := sendResult env w msg wParam lParam
  (r, { w with
        buttons := if r = 0 then w.buttons else applyMsg w.buttons msg wParam lParam
        calls := w.calls ++ [⟨msg, wParam, lParam, r⟩] })

/-- Modelled from the spec: GetWindowLong(hWnd, GWL_STYLE) of user32 (missing). -/
def GetWindowLong_GWL_STYLE (w : Window) : Nat := w.style

/-- Modelled from the spec: WidgetBase.hasStyleBits (widget.go is missing). -/
def hasStyleBits (tb : ToolBar) (bits : Nat) : Bool :=
  GetWindowLong_GWL_STYLE tb.hWnd &&& bits == bits

/-- Modelled from the spec: WidgetBase.SetVisible (widget.go is missing): makes
the control visible or hides it. -/
def SetVisible (tb : ToolBar) (visible : Bool) : ToolBar :=
  { tb with hWnd := { tb.hWnd with visible := visible } }

/-- Modelled from the spec: ImageList.AddMasked (imagelist.go is missing):
inserts the image into the backing strip and returns its new index, or fails
(resource exhaustion) and leaves the strip as it was. -/
def ImageList.AddMasked (env : Env) (il : ImageList) (image : Bitmap) :
    (Int × Option Error) × ImageList :=
  if env.addMaskedOk il image then
    ((il.images.length, none), { il with images := il.images ++ [image] })
  else
    ((0, some (newError "ImageList_AddMasked failed")), il)

/-- Modelled from the spec: Action.addChangedHandler (action.go is missing):
subscribes the toolbar to the change channel of the action. -/
def addChangedHandler (tb : ToolBar) (action : Action) : ToolBar :=
  { tb with changedHandlers := action.id :: tb.changedHandlers }

/-- Modelled from the spec: Action.removeChangedHandler (action.go is missing):
removes one subscription of the toolbar from the change channel of the action. -/
def removeChangedHandler (tb : ToolBar) (action : Action) : ToolBar :=
  { tb with changedHandlers := tb.changedHandlers.erase action.id }

/-- Modelled from the spec: ActionList.Len (actionlist.go is missing). -/
def Len (tb : ToolBar) : Nat := tb.actions.length

/-- Modelled from the spec: ActionList.At (actionlist.go is missing); an index
out of range is a run-time panic. -/
def At (tb : ToolBar) (index : Nat) : Option Action := tb.actions.get? index

/-- Modelled from the spec: initChildWidget (widget.go is missing) creates the
native control with the given style bits: hidden, without buttons, nothing
sent to it yet. -/
def initChildWidget (style : Nat) : Window :=
  { style := style, visible := false, buttons := [], calls := [] }

/-! ## toolbar.go -/

/-- The function newToolBar, in the case in which initChildWidget reports no
error: an empty action list, no image list, both width limits zero, the
control created with CCS_NODIVIDER and the given style. -/
def newToolBar (style : Nat) : ToolBar :=
  { hWnd := initChildWidget (CCS_NODIVIDER ||| style)
    imageList := none
    actions := []
    minButtonWidth := 0
    maxButtonWidth := 0
    changedHandlers := [] }

/-- The function NewToolBar (Horizontal orientation). -/
def NewToolBar : ToolBar := newToolBar TBSTYLE_WRAPABLE

/-- The function NewVerticalToolBar (Vertical orientation). -/
def NewVerticalToolBar : ToolBar := newToolBar (CCS_VERT ||| CCS_NORESIZE)

/-- The method ToolBar.SizeHint. -/
def SizeHint (tb : ToolBar) : Size :=
  if Len tb = 0 then
    { Width := 0, Height := 0 }
  else
    let style := GetWindowLong_GWL_STYLE tb.hWnd
    if style &&& CCS_VERT > 0 ∧ tb.minButtonWidth > 0 then
      { Width := (tb.minButtonWidth : Int), Height := 44 }
    else
      { Width := 44, Height := 44 }

/-- The method ToolBar.ButtonWidthLimits. -/
def ButtonWidthLimits (tb : ToolBar) : Nat × Nat :=
  (tb.minButtonWidth, tb.maxButtonWidth)

/-- The method ToolBar.SetButtonWidthLimits; min and max are uint16 values. -/
def SetButtonWidthLimits (env : Env) (tb : ToolBar) (min max : Nat) : Option Error × ToolBar :=
  let (r, w) := SendMessage env tb.hWnd .TB_SETBUTTONWIDTH 0 (.value (MAKELONG min max))
  if r = 0 then
    (some (newError "TB_SETBUTTONWIDTH failed"), { tb with hWnd := w })
  else
    (none, { tb with hWnd := w, minButtonWidth := min, maxButtonWidth := max })

/-- The method ToolBar.SetImageList; nil is `none`. -/
def SetImageList (env : Env) (tb : ToolBar) (value : Option ImageList) : ToolBar :=
  let hIml : Nat := match value with
    | some v => v.hIml
    | none => 0
  let (_, w) := SendMessage env tb.hWnd .TB_SETIMAGELIST 0 (.value hIml)
  { tb with hWnd := w, imageList := value }

/-- The method ToolBar.imageIndex. With an image and no image list attached the
call dereferences nil (the outer `none`). -/
def imageIndex (env : Env) (tb : ToolBar) (image : Option Bitmap) :
    Option ((Int × Option Error) × ToolBar) :=
  match image with
  | none => some ((-1, none), tb)
  | some bmp =>
    match tb.imageList with
    | none => none
    | some il =>
      let (r, il1) := ImageList.AddMasked env il bmp
      some (r, { tb with imageList := some il1 })

/-- The four fields initButtonForAction writes through its pointer arguments. -/
structure ButtonFields where
  state : Nat
  style : Nat
  image : Int
  text : Option String
deriving DecidableEq, Repr

/-- The method ToolBar.initButtonForAction. The argument `f` holds what the
four pointers point to at the call, the result what they point to at the
return, next to the error. When the image resolution fails the text is not
written. -/
def initButtonForAction (env : Env) (tb : ToolBar) (action : Action) (f : ButtonFields) :
    Option ((Option Error × ButtonFields) × ToolBar) :=
  let f := if hasStyleBits tb CCS_VERT then { f with state := f.state ||| TBSTATE_WRAP }
           else { f with style := f.style ||| BTNS_AUTOSIZE }
  let f := if action.checked then { f with state := f.state ||| TBSTATE_CHECKED } else f
  let f := if action.enabled then { f with state := f.state ||| TBSTATE_ENABLED } else f
  let f := if action.checkable then { f with style := f.style ||| BTNS_CHECK } else f
  let f := if action.exclusive then { f with style := f.style ||| BTNS_GROUP } else f
  match imageIndex env tb action.image with
  | none => none
  | some ((image, some err), tb1) => some ((some err, { f with image := image }), tb1)
  | some ((image, none), tb1) =>
    some ((none, { f with image := image, text := some action.Text }), tb1)

/-- The method ToolBar.onActionChanged. -/
def onActionChanged (env : Env) (tb : ToolBar) (action : Action) : Option (Option Error × ToolBar) :=
  let tbbi : TBBUTTONINFO :=
    { CbSize := 0
      DwMask := TBIF_IMAGE ||| TBIF_STATE ||| TBIF_STYLE ||| TBIF_TEXT
      IImage := 0, FsState := 0, FsStyle := 0, PszText := none }
  let tbbi := { tbbi with CbSize := env.sizeofTBBUTTONINFO }
  match initButtonForAction env tb action ⟨tbbi.FsState, tbbi.FsStyle, tbbi.IImage, tbbi.PszText⟩ with
  | none => none
  | some ((some err, _), tb1) => some (some err, tb1)
  | some ((none, f), tb1) =>
    let tbbi := { tbbi with FsState := f.state, FsStyle := f.style, IImage := f.image,
                            PszText := f.text }
    let (r, w) := SendMessage env tb1.hWnd .TB_SETBUTTONINFO action.id (.tbbuttoninfo tbbi)
    if 0 = r then
      some (some (newError "SendMessage(TB_SETBUTTONINFO) failed"), { tb1 with hWnd := w })
    else
      some (none, { tb1 with hWnd := w })

/-- The method ToolBar.onInsertingAction. The index is received and not used:
the button is handed to the control with TB_ADDBUTTONS, wParam 1. -/
def onInsertingAction (env : Env) (tb : ToolBar) (index : Nat) (action : Action) :
    Option (Option Error × ToolBar) :=
  let _ := index
  let tbb : TBBUTTON :=
    { IBitmap := 0, IdCommand := (action.id : Int), FsState := 0, FsStyle := 0, IString := none }
  match initButtonForAction env tb action ⟨tbb.FsState, tbb.FsStyle, tbb.IBitmap, tbb.IString⟩ with
  | none => none
  | some ((some err, _), tb1) => some (some err, tb1)
  | some ((none, f), tb1) =>
    let tbb := { tbb with FsState := f.state, FsStyle := f.style, IBitmap := f.image,
                          IString := f.text }
    let tb2 := SetVisible tb1 true
    let (_, w3) := SendMessage env tb2.hWnd .TB_BUTTONSTRUCTSIZE env.sizeofTBBUTTON (.value 0)
    let (r, w4) := SendMessage env w3 .TB_ADDBUTTONS 1 (.tbbuttons [tbb])
    if FALSE = r then
      some (some (newError "SendMessage(TB_ADDBUTTONS)"), { tb2 with hWnd := w4 })
    else
      let (_, w5) := SendMessage env w4 .TB_AUTOSIZE 0 (.value 0)
      some (none, addChangedHandler { tb2 with hWnd := w5 } action)

/-- The method ToolBar.removeAt; an index outside the action list is a panic
(the Go index is an int, a negative one is outside the list as well). -/
def removeAt (env : Env) (tb : ToolBar) (index : Nat) : Option (Option Error × ToolBar) :=
  match At tb index with
  | none => none
  | some action =>
    let tb1 := removeChangedHandler tb action
    let (r, w) := SendMessage env tb1.hWnd .TB_DELETEBUTTON index (.value 0)
    if 0 = r then
      some (some (newError "SendMessage(TB_DELETEBUTTON) failed"), { tb1 with hWnd := w })
    else
      some (none, { tb1 with hWnd := w })

/-- The method ToolBar.onRemovingAction. -/
def onRemovingAction (env : Env) (tb : ToolBar) (index : Nat) (_action : Action) :
    Option (Option Error × ToolBar) :=
  removeAt env tb index

/-- The loop of onClearingActions, `for i := ...; i >= 0; i--`, with `count`
one more than the loop variable: `count = i + 1`, and `count = 0` is the exit. -/
def clearLoop (env : Env) (tb : ToolBar) : Nat → Option (Option Error × ToolBar)
  | 0 => some (none, tb)
  | i + 1 =>
    match removeAt env tb i with
    | none => none
    | some (some err, tb1) => some (some err, tb1)
    | some (none, tb1) => clearLoop env tb1 i

/-- The method ToolBar.onClearingActions. -/
def onClearingActions (env : Env) (tb : ToolBar) : Option (Option Error × ToolBar) :=
  clearLoop env tb (Len tb)

/-- The method ToolBar.wndProc. `base` is WidgetBase.wndProc, `actionsById` the
registry from action ids to actions (nil is `none`), `deref` reads the NMMOUSE
a pointer points to. The result is the list of the actions whose
raiseTriggered was called, in call order, and the returned value. -/
def wndProc (base : Nat → Nat → Nat → Nat → Nat) (actionsById : Nat → Option Action)
    (deref : Nat → NMMOUSE) (hwnd msg wParam lParam : Nat) : List Action × Nat :=
  let triggered : List Action :=
    if msg = WM_NOTIFY then
      let nmm := deref lParam
      if nmm.Code = NM_CLICK then
        let actionId := nmm.DwItemSpec % 65536
        match actionsById actionId with
        | some action => [action]
        | none => []
      else []
    else []
  (triggered, base hwnd msg wParam lParam)

/-! ## The action list driving the toolbar -/

/-- Modelled from the spec: ActionList.Insert (actionlist.go is missing). The
list notifies the toolbar before the insert and inserts only when the handler
reports no error; an index beyond the end is a run-time panic. -/
def ActionList.Insert (env : Env) (tb : ToolBar) (index : Nat) (action : Action) :
    Option (Option Error × ToolBar) :=
  match onInsertingAction env tb index action with
  | none => none
  | some (some err, tb1) => some (some err, tb1)
  | some (none, tb1) =>
    if index ≤ tb1.actions.length then
      some (none, { tb1 with actions := tb1.actions.insertIdx index action })
    else none

/-- Modelled from the spec: ActionList.RemoveAt (actionlist.go is missing). The
list notifies the toolbar before the removal and removes only when the handler
reports no error; an index outside the list is a run-time panic. -/
def ActionList.RemoveAt (env : Env) (tb : ToolBar) (index : Nat) :
    Option (Option Error × ToolBar) :=
  match tb.actions.get? index with
  | none => none
  | some action =>
    match onRemovingAction env tb index action with
    | none => none
    | some (some err, tb1) => some (some err, tb1)
    | some (none, tb1) => some (none, { tb1 with actions := tb1.actions.eraseIdx index })

/-- Modelled from the spec: ActionList.Clear (actionlist.go is missing). The
list notifies the toolbar before the clear and empties itself only when the
handler reports no error. -/
def ActionList.Clear (env : Env) (tb : ToolBar) : Option (Option Error × ToolBar) :=
  match onClearingActions env tb with
  | none => none
  | some (some err, tb1) => some (some err, tb1)
  | some (none, tb1) => some (none, { tb1 with actions := [] })

/-- An operation of the owner on the action list. -/
inductive Op where
  | Insert (index : Nat) (action : Action)
  | RemoveAt (index : Nat)
  | Clear
deriving DecidableEq, Repr

/-- One operation on the action list of the toolbar. -/
def applyOp (env : Env) (tb : ToolBar) : Op → Option (Option Error × ToolBar)
  | .Insert index action => ActionList.Insert env tb index action
  | .RemoveAt index => ActionList.RemoveAt env tb index
  | .Clear => ActionList.Clear env tb

/-- A sequence of operations, one after the other; an operation that reports
an error is followed by the next one, a panic ends the run. -/
def applyOps (env : Env) (tb : ToolBar) : List Op → Option ToolBar
  | [] => some tb
  | op :: ops =>
    match applyOp env tb op with
    | none => none
    | some (_, tb1) => applyOps env tb1 ops

/-- A sequence of SetButtonWidthLimits calls, one after the other, each with
its (min, max) arguments. -/
def applyLimits (env : Env) (tb : ToolBar) : List (Nat × Nat) → ToolBar
  | [] => tb
  | (min, max) :: rest => applyLimits env (SetButtonWidthLimits env tb min max).2 rest

/-- The native button array is index-isomorphic to the action list: position i
holds the command id of the i-th action. -/
def indexIsomorphic (tb : ToolBar) : Prop :=
  tb.hWnd.buttons = tb.actions.map (fun a => (a.id : Int))

instance (tb : ToolBar) : Decidable (indexIsomorphic tb) := by
  unfold indexIsomorphic
  infer_instance

/-- The toolbar is in Vertical orientation: the style bit CCS_VERT is set. -/
def Vertical (tb : ToolBar) : Prop := tb.hWnd.style &&& CCS_VERT = CCS_VERT

instance (tb : ToolBar) : Decidable (Vertical tb) := by
  unfold Vertical
  infer_instance

/-- The state byte section 4.2 of the specification asks for: the wrap flag in
Vertical orientation, the checked flag of a checked action, the enabled flag
of an enabled action, and no other bit. -/
def specState (vertical : Bool) (action : Action) : Nat :=
  (if vertical then TBSTATE_WRAP else 0) |||
  (if action.checked then TBSTATE_CHECKED else 0) |||
  (if action.enabled then TBSTATE_ENABLED else 0)

/-- The style byte section 4.2 of the specification asks for: the autosize flag
in Horizontal orientation, the check flag of a checkable action, the group
flag of an exclusive action, and no other bit. -/
def specStyle (vertical : Bool) (action : Action) : Nat :=
  (if vertical then 0 else BTNS_AUTOSIZE) |||
  (if action.checkable then BTNS_CHECK else 0) |||
  (if action.exclusive then BTNS_GROUP else 0)

/-- The indices n-1, n-2, ..., k in descending order (empty when n ≤ k). -/
def descending (k n : Nat) : List Nat := (List.range' k (n - k)).reverse

/-! ## Platforms used for concrete runs -/

/-- A platform that accepts every command and every image. -/
def acceptAll : Env :=
  { send := fun _ _ _ _ => 1
    addMaskedOk := fun _ _ => true
    sizeofTBBUTTON := 20
    sizeofTBBUTTONINFO := 32 }

/-- A platform that rejects every command and every image. -/
def rejectAll : Env :=
  { send := fun _ _ _ _ => 0
    addMaskedOk := fun _ _ => false
    sizeofTBBUTTON := 20
    sizeofTBBUTTONINFO := 32 }

/-- A platform that rejects TB_DELETEBUTTON at the given index and accepts
everything else. -/
def rejectDeleteAt (k : Nat) : Env :=
  { send := fun _ msg wParam _ => if msg = .TB_DELETEBUTTON ∧ wParam = k then 0 else 1
    addMaskedOk := fun _ _ => true
    sizeofTBBUTTON := 20
    sizeofTBBUTTONINFO := 32 }

/-- An action without an image: the given id and enabled flag, not checked, not
checkable, not exclusive. -/
def plainAction (id : Nat) (enabled : Bool) : Action :=
  { id := id, text := "a", image := none, enabled := enabled, checked := false,
    checkable := false, exclusive := false }

/-! ## Orientation -/

/-- Masking with a single bit leaves nothing or the bit. -/
theorem and_two_pow_cases (x n : Nat) : x &&& 2 ^ n = 0 ∨ x &&& 2 ^ n = 2 ^ n := by
  cases hb : x.testBit n
  · left
    apply Nat.eq_of_testBit_eq
    intro i
    by_cases hi : n = i
    · subst hi
      simp [Nat.testBit_and, hb]
    · simp [Nat.testBit_and, Nat.testBit_two_pow, hi]
  · right
    apply Nat.eq_of_testBit_eq
    intro i
    by_cases hi : n = i
    · subst hi
      simp [Nat.testBit_and, hb]
    · simp [Nat.testBit_and, Nat.testBit_two_pow, hi]

/-- Masking with the single bit CCS_VERT leaves nothing or the bit. -/
theorem and_CCS_VERT (x : Nat) : x &&& CCS_VERT = 0 ∨ x &&& CCS_VERT = CCS_VERT :=
  and_two_pow_cases x 7

/-- The test of initButtonForAction, hasStyleBits(CCS_VERT), is the Vertical
orientation. -/
theorem hasStyleBits_CCS_VERT (tb : ToolBar) : hasStyleBits tb CCS_VERT = true ↔ Vertical tb := by
  simp [hasStyleBits, Vertical, GetWindowLong_GWL_STYLE]

/-- The test of SizeHint, style&CCS_VERT > 0, is the Vertical orientation. -/
theorem style_and_CCS_VERT_pos (tb : ToolBar) :
    GetWindowLong_GWL_STYLE tb.hWnd &&& CCS_VERT > 0 ↔ Vertical tb := by
  unfold Vertical GetWindowLong_GWL_STYLE
  rcases and_CCS_VERT tb.hWnd.style with h | h
  · rw [h]
    simp [CCS_VERT]
  · rw [h]
    simp [CCS_VERT]

/-! ## SizeHint -/

/-- Claim C8: with an empty action list SizeHint is the zero size, whatever the
orientation and the stored width limits; with a non-empty list it is
(minButtonWidth, 44) when the toolbar is Vertical and minButtonWidth > 0, and
(44, 44) in every other case. -/
theorem SizeHint_cases (tb : ToolBar) :
    (tb.actions = [] → SizeHint tb = { Width := 0, Height := 0 }) ∧
    (tb.actions ≠ [] → Vertical tb ∧ 0 < tb.minButtonWidth →
      SizeHint tb = { Width := (tb.minButtonWidth : Int), Height := 44 }) ∧
    (tb.actions ≠ [] → ¬ (Vertical tb ∧ 0 < tb.minButtonWidth) →
      SizeHint tb = { Width := 44, Height := 44 }) := by
  have hv := style_and_CCS_VERT_pos tb
  refine ⟨?_, ?_, ?_⟩
  · intro h
    simp [SizeHint, Len, h]
  · intro h hc
    have hlen : ¬ tb.actions.length = 0 := by
      intro h0
      exact h (List.length_eq_zero.mp h0)
    have hc2 : GetWindowLong_GWL_STYLE tb.hWnd &&& CCS_VERT > 0 ∧ tb.minButtonWidth > 0 :=
      ⟨hv.mpr hc.1, hc.2⟩
    simp only [SizeHint, Len, hlen, if_false, hc2, and_self, if_true]
  · intro h hc
    have hlen : ¬ tb.actions.length = 0 := by
      intro h0
      exact h (List.length_eq_zero.mp h0)
    have hc2 : ¬ (GetWindowLong_GWL_STYLE tb.hWnd &&& CCS_VERT > 0 ∧ tb.minButtonWidth > 0) := by
      intro hh
      exact hc ⟨hv.mp hh.1, hh.2⟩
    simp only [SizeHint, Len, hlen, if_false, hc2]

/-! ## SetButtonWidthLimits -/

/-- The outcome of SetButtonWidthLimits: one recorded TB_SETBUTTONWIDTH, an
error exactly when the control returns 0, the stored pair kept on an error and
replaced on nil. -/
theorem SetButtonWidthLimits_outcome (env : Env) (tb : ToolBar) (min max : Nat) :
    (SetButtonWidthLimits env tb min max).2.hWnd.calls =
        tb.hWnd.calls ++ [⟨.TB_SETBUTTONWIDTH, 0, .value (MAKELONG min max),
          sendResult env tb.hWnd .TB_SETBUTTONWIDTH 0 (.value (MAKELONG min max))⟩] ∧
    ((SetButtonWidthLimits env tb min max).1 ≠ none ↔
        sendResult env tb.hWnd .TB_SETBUTTONWIDTH 0 (.value (MAKELONG min max)) = 0) ∧
    ((SetButtonWidthLimits env tb min max).1 ≠ none →
        ButtonWidthLimits (SetButtonWidthLimits env tb min max).2 = ButtonWidthLimits tb) ∧
    ((SetButtonWidthLimits env tb min max).1 = none →
        ButtonWidthLimits (SetButtonWidthLimits env tb min max).2 = (min, max)) := by
  by_cases h : sendResult env tb.hWnd .TB_SETBUTTONWIDTH 0 (.value (MAKELONG min max)) = 0
  · simp [SetButtonWidthLimits, SendMessage, ButtonWidthLimits, h]
  · simp [SetButtonWidthLimits, SendMessage, ButtonWidthLimits, h]

/-- Claim C6: SetButtonWidthLimits(min, max) sends one TB_SETBUTTONWIDTH with
MAKELONG(min, max) and returns an error if and only if the control returns 0;
after an error ButtonWidthLimits is the pair it was before the call, after nil
it is exactly (min, max). -/
theorem SetButtonWidthLimits_all_or_nothing (env : Env) (tb : ToolBar) (min max : Nat) :
    (SetButtonWidthLimits env tb min max).2.hWnd.calls =
        tb.hWnd.calls ++ [⟨.TB_SETBUTTONWIDTH, 0, .value (MAKELONG min max),
          sendResult env tb.hWnd .TB_SETBUTTONWIDTH 0 (.value (MAKELONG min max))⟩] ∧
    ((SetButtonWidthLimits env tb min max).1 ≠ none ↔
        sendResult env tb.hWnd .TB_SETBUTTONWIDTH 0 (.value (MAKELONG min max)) = 0) ∧
    ((SetButtonWidthLimits env tb min max).1 ≠ none →
        ButtonWidthLimits (SetButtonWidthLimits env tb min max).2 = ButtonWidthLimits tb) ∧
    ((SetButtonWidthLimits env tb min max).1 = none →
        ButtonWidthLimits (SetButtonWidthLimits env tb min max).2 = (min, max)) :=
  SetButtonWidthLimits_outcome env tb min max

/-! ## wndProc -/

/-- Claim C7: for a WM_NOTIFY message with code NM_CLICK, wndProc triggers no
action when the item identifier, truncated to 16 bits as the lookup does, is
not in the registry, and exactly the registered action, once, when it is; for
every other message type or notification code it triggers nothing; and in all
cases it returns what the base wndProc returns for the same four arguments. -/
theorem wndProc_click_routing (base : Nat → Nat → Nat → Nat → Nat)
    (actionsById : Nat → Option Action) (deref : Nat → NMMOUSE) (hwnd msg wParam lParam : Nat) :
    (wndProc base actionsById deref hwnd msg wParam lParam).2 = base hwnd msg wParam lParam ∧
    (msg = WM_NOTIFY ∧ (deref lParam).Code = NM_CLICK →
      (actionsById ((deref lParam).DwItemSpec % 65536) = none →
        (wndProc base actionsById deref hwnd msg wParam lParam).1 = []) ∧
      (∀ action, actionsById ((deref lParam).DwItemSpec % 65536) = some action →
        (wndProc base actionsById deref hwnd msg wParam lParam).1 = [action])) ∧
    (¬ (msg = WM_NOTIFY ∧ (deref lParam).Code = NM_CLICK) →
      (wndProc base actionsById deref hwnd msg wParam lParam).1 = []) := by
  refine ⟨rfl, ?_, ?_⟩
  · rintro ⟨hm, hc⟩
    constructor
    · intro hnone
      simp [wndProc, hm, hc, hnone]
    · intro action hsome
      simp [wndProc, hm, hc, hsome]
  · intro hne
    by_cases hm : msg = WM_NOTIFY
    · have hc : ¬ (deref lParam).Code = NM_CLICK := fun hc => hne ⟨hm, hc⟩
      simp [wndProc, hm, hc]
    · simp [wndProc, hm]

/-! ## imageIndex and initButtonForAction -/

/-- Resolving an image touches nothing but the image list. -/
theorem imageIndex_frame (env : Env) (tb tb1 : ToolBar) (image : Option Bitmap)
    (r : Int × Option Error) (h : imageIndex env tb image = some (r, tb1)) :
    tb1.hWnd = tb.hWnd ∧ tb1.actions = tb.actions ∧
    tb1.minButtonWidth = tb.minButtonWidth ∧ tb1.maxButtonWidth = tb.maxButtonWidth ∧
    tb1.changedHandlers = tb.changedHandlers := by
  unfold imageIndex at h
  cases image with
  | none =>
    simp only [Option.some.injEq, Prod.mk.injEq] at h
    obtain ⟨-, rfl⟩ := h
    simp
  | some bmp =>
    cases hil : tb.imageList with
    | none => simp [hil] at h
    | some il =>
      simp only [hil, Option.some.injEq, Prod.mk.injEq] at h
      obtain ⟨-, rfl⟩ := h
      simp

/-- A failed image resolution leaves the whole toolbar as it was. -/
theorem imageIndex_error_unchanged (env : Env) (tb tb1 : ToolBar) (image : Option Bitmap)
    (i : Int) (err : Error) (h : imageIndex env tb image = some ((i, some err), tb1)) :
    tb1 = tb := by
  unfold imageIndex at h
  cases image with
  | none => simp at h
  | some bmp =>
    cases hil : tb.imageList with
    | none => simp [hil] at h
    | some il =>
      simp only [hil, ImageList.AddMasked, Option.some.injEq, Prod.mk.injEq] at h
      by_cases hok : env.addMaskedOk il bmp = true
      · simp [hok] at h
      · simp only [hok, if_false] at h
        obtain ⟨-, rfl⟩ := h
        cases tb
        simp_all

/-- What initButtonForAction computes from zeroed state and style bytes when
the image resolves. -/
theorem initButtonForAction_ok (env : Env) (tb tb1 : ToolBar) (action : Action)
    (image0 image : Int) (text0 : Option String)
    (himg : imageIndex env tb action.image = some ((image, none), tb1)) :
    initButtonForAction env tb action ⟨0, 0, image0, text0⟩ =
      some ((none, ⟨specState (decide (Vertical tb)) action,
                    specStyle (decide (Vertical tb)) action, image, some action.Text⟩), tb1) := by
  have hb : hasStyleBits tb CCS_VERT = decide (Vertical tb) := by
    by_cases hv : Vertical tb
    · simp [hv, (hasStyleBits_CCS_VERT tb).mpr hv]
    · have : ¬ hasStyleBits tb CCS_VERT = true := fun h => hv ((hasStyleBits_CCS_VERT tb).mp h)
      simp [hv, this]
  simp only [initButtonForAction, himg, hb]
  by_cases hv : Vertical tb <;> cases hc : action.checked <;> cases he : action.enabled <;>
    cases hk : action.checkable <;> cases hx : action.exclusive <;>
    simp [hv, specState, specStyle, hc, he, hk, hx]

/-- What initButtonForAction returns when the image does not resolve. -/
theorem initButtonForAction_error (env : Env) (tb tb1 : ToolBar) (action : Action)
    (f : ButtonFields) (i : Int) (err : Error)
    (himg : imageIndex env tb action.image = some ((i, some err), tb1)) :
    ∃ g, initButtonForAction env tb action f = some ((some err, g), tb1) := by
  simp only [initButtonForAction, himg]
  exact ⟨_, rfl⟩

/-- Claim C4: called with zeroed state and style bytes and a succeeding image
resolution, initButtonForAction yields exactly state = wrap (if Vertical) |
checked (if action.checked) | enabled (if action.enabled) and style = autosize
(if Horizontal) | check (if action.checkable) | group (if action.exclusive).
In Vertical orientation wrap is set and autosize is not, in Horizontal
orientation autosize is set and wrap is not, and the enabled bit is set if and
only if action.enabled. -/
theorem initButtonForAction_state_style (env : Env) (tb tb1 : ToolBar) (action : Action)
    (image0 image : Int) (text0 : Option String)
    (himg : imageIndex env tb action.image = some ((image, none), tb1)) :
    ∃ f, initButtonForAction env tb action ⟨0, 0, image0, text0⟩ = some ((none, f), tb1) ∧
      f.state = (if Vertical tb then TBSTATE_WRAP else 0) |||
                (if action.checked then TBSTATE_CHECKED else 0) |||
                (if action.enabled then TBSTATE_ENABLED else 0) ∧
      f.style = (if Vertical tb then 0 else BTNS_AUTOSIZE) |||
                (if action.checkable then BTNS_CHECK else 0) |||
                (if action.exclusive then BTNS_GROUP else 0) ∧
      f.image = image ∧ f.text = some action.Text ∧
      (Vertical tb → f.state &&& TBSTATE_WRAP = TBSTATE_WRAP ∧ f.style &&& BTNS_AUTOSIZE = 0) ∧
      (¬ Vertical tb → f.style &&& BTNS_AUTOSIZE = BTNS_AUTOSIZE ∧ f.state &&& TBSTATE_WRAP = 0) ∧
      (f.state &&& TBSTATE_ENABLED = TBSTATE_ENABLED ↔ action.enabled = true) := by
  refine ⟨_, initButtonForAction_ok env tb tb1 action image0 image text0 himg, ?_⟩
  by_cases hv : Vertical tb <;> cases hc : action.checked <;> cases he : action.enabled <;>
    cases hk : action.checkable <;> cases hx : action.exclusive <;>
    simp [hv, specState, specStyle, hc, he, hk, hx] <;> decide

/-- Claim C4 at a concrete input: a disabled, checked action on a Vertical
toolbar gets state wrap | checked (0x21) and style 0. -/
theorem initButtonForAction_state_style_witness :
    ∃ f, initButtonForAction acceptAll NewVerticalToolBar
          { plainAction 7 false with checked := true } ⟨0, 0, 0, none⟩
        = some ((none, f), NewVerticalToolBar) ∧ f.state = 0x21 ∧ f.style = 0 ∧ f.image = -1 := by
  obtain ⟨f, h, hs, hy, hi, -⟩ :=
    initButtonForAction_state_style acceptAll NewVerticalToolBar NewVerticalToolBar
      { plainAction 7 false with checked := true } 0 (-1) none rfl
  refine ⟨f, h, ?_, ?_, hi⟩
  · rw [hs]
    decide
  · rw [hy]
    decide

/-! ## onActionChanged -/

/-- Claim C5: when the image of the action resolves, onActionChanged sends
exactly one message, a TB_SETBUTTONINFO addressed to action.id whose mask is
TBIF_IMAGE|TBIF_STATE|TBIF_STYLE|TBIF_TEXT and whose state and style are
rebuilt from the current flags of the action (the enabled bit is set when the
action is enabled); it returns an error if and only if that message returns 0,
and nothing is sent after it. -/
theorem onActionChanged_single_update (env : Env) (tb tb1 : ToolBar) (action : Action)
    (image : Int) (himg : imageIndex env tb action.image = some ((image, none), tb1)) :
    ∃ err tb2 info result,
      onActionChanged env tb action = some (err, tb2) ∧
      tb2.hWnd.calls = tb.hWnd.calls ++
        [⟨.TB_SETBUTTONINFO, action.id, .tbbuttoninfo info, result⟩] ∧
      info.DwMask = TBIF_IMAGE ||| TBIF_STATE ||| TBIF_STYLE ||| TBIF_TEXT ∧
      info.FsState = (if Vertical tb then TBSTATE_WRAP else 0) |||
                     (if action.checked then TBSTATE_CHECKED else 0) |||
                     (if action.enabled then TBSTATE_ENABLED else 0) ∧
      info.FsStyle = (if Vertical tb then 0 else BTNS_AUTOSIZE) |||
                     (if action.checkable then BTNS_CHECK else 0) |||
                     (if action.exclusive then BTNS_GROUP else 0) ∧
      info.IImage = image ∧ info.PszText = some action.Text ∧
      (info.FsState &&& TBSTATE_ENABLED = TBSTATE_ENABLED ↔ action.enabled = true) ∧
      result = env.send tb.hWnd.calls .TB_SETBUTTONINFO action.id (.tbbuttoninfo info) ∧
      (err ≠ none ↔ result = 0) := by
  obtain ⟨hw, -⟩ := imageIndex_frame env tb tb1 action.image _ himg
  have hinit := initButtonForAction_ok env tb tb1 action 0 image none himg
  have hbits : (specState (decide (Vertical tb)) action =
        (if Vertical tb then TBSTATE_WRAP else 0) |||
        (if action.checked then TBSTATE_CHECKED else 0) |||
        (if action.enabled then TBSTATE_ENABLED else 0)) ∧
      (specStyle (decide (Vertical tb)) action =
        (if Vertical tb then 0 else BTNS_AUTOSIZE) |||
        (if action.checkable then BTNS_CHECK else 0) |||
        (if action.exclusive then BTNS_GROUP else 0)) ∧
      (specState (decide (Vertical tb)) action &&& TBSTATE_ENABLED = TBSTATE_ENABLED ↔
        action.enabled = true) := by
    by_cases hv : Vertical tb <;> cases hc : action.checked <;> cases he : action.enabled <;>
      cases hk : action.checkable <;> cases hx : action.exclusive <;>
      simp [hv, specState, specStyle, hc, he, hk, hx] <;> decide
  obtain ⟨hst, hsy, hen⟩ := hbits
  obtain ⟨info, hinfo⟩ : ∃ info : TBBUTTONINFO, info =
      { CbSize := env.sizeofTBBUTTONINFO
        DwMask := TBIF_IMAGE ||| TBIF_STATE ||| TBIF_STYLE ||| TBIF_TEXT
        IImage := image
        FsState := specState (decide (Vertical tb)) action
        FsStyle := specStyle (decide (Vertical tb)) action
        PszText := some action.Text } := ⟨_, rfl⟩
  have hfields : info.DwMask = TBIF_IMAGE ||| TBIF_STATE ||| TBIF_STYLE ||| TBIF_TEXT ∧
      info.FsState = specState (decide (Vertical tb)) action ∧
      info.FsStyle = specStyle (decide (Vertical tb)) action ∧
      info.IImage = image ∧ info.PszText = some action.Text := by
    subst hinfo
    exact ⟨rfl, rfl, rfl, rfl, rfl⟩
  obtain ⟨hm, hfs, hfy, hfi, hft⟩ := hfields
  have key : ∃ tb2, onActionChanged env tb action =
        some (if 0 = env.send tb.hWnd.calls .TB_SETBUTTONINFO action.id (.tbbuttoninfo info)
              then some (newError "SendMessage(TB_SETBUTTONINFO) failed") else none, tb2) ∧
      tb2.hWnd.calls = tb.hWnd.calls ++ [⟨.TB_SETBUTTONINFO, action.id, .tbbuttoninfo info,
        env.send tb.hWnd.calls .TB_SETBUTTONINFO action.id (.tbbuttoninfo info)⟩] := by
    subst hinfo
    simp only [onActionChanged, hinit, SendMessage, sendResult, hw]
    split
    · exact ⟨_, rfl, rfl⟩
    · exact ⟨_, rfl, rfl⟩
  obtain ⟨tb2, hret, hcalls⟩ := key
  refine ⟨_, tb2, info, _, hret, hcalls, hm, hfs.trans hst, hfy.trans hsy, hfi, hft, ?_, rfl, ?_⟩
  · rw [hfs]
    exact hen
  · by_cases hr : 0 = env.send tb.hWnd.calls .TB_SETBUTTONINFO action.id (.tbbuttoninfo info)
    · rw [if_pos hr]
      exact ⟨fun _ => hr.symm, fun _ => by simp⟩
    · have hr2 : ¬ env.send tb.hWnd.calls .TB_SETBUTTONINFO action.id (.tbbuttoninfo info) = 0 :=
        fun h => hr h.symm
      simp [hr, hr2]

/-- Claim C5 at a concrete input: after enabled is set, one TB_SETBUTTONINFO for
id 7 carries the enabled bit; the accepting control makes the call return nil. -/
theorem onActionChanged_single_update_witness :
    ∃ tb2 info,
      onActionChanged acceptAll NewToolBar (plainAction 7 true) = some (none, tb2) ∧
      tb2.hWnd.calls = [⟨.TB_SETBUTTONINFO, 7, .tbbuttoninfo info, 1⟩] ∧
      info.DwMask = 15 ∧ info.FsState = TBSTATE_ENABLED ∧ info.FsStyle = BTNS_AUTOSIZE := by
  obtain ⟨err, tb2, info, result, h, hcalls, hmask, hst, hsy, -, -, -, hres, herr⟩ :=
    onActionChanged_single_update acceptAll NewToolBar NewToolBar (plainAction 7 true) (-1) rfl
  have hr1 : result = 1 := by
    rw [hres]
    rfl
  have he : err = none := by
    by_contra hne
    have := herr.mp hne
    omega
  subst he
  subst hr1
  refine ⟨tb2, info, h, ?_, ?_, ?_, ?_⟩
  · rw [hcalls]
    rfl
  · rw [hmask]
    decide
  · rw [hst]
    decide
  · rw [hsy]
    decide

/-! ## A failing image resolution -/

/-- Claim C9: imageIndex returns -1 and inserts nothing when the image is
absent; and when the image of the action does not resolve, onInsertingAction
returns that error with the toolbar as it was: nothing sent to the control,
the control not made visible, the button array unchanged, no subscription to
the change channel of the action. -/
theorem onInsertingAction_image_failure (env : Env) (tb tb1 : ToolBar) (index : Nat)
    (action : Action) (i : Int) (err : Error)
    (himg : imageIndex env tb action.image = some ((i, some err), tb1)) :
    imageIndex env tb none = some ((-1, none), tb) ∧
    onInsertingAction env tb index action = some (some err, tb) ∧
    tb1.hWnd.calls = tb.hWnd.calls ∧ tb1.hWnd.visible = tb.hWnd.visible ∧
    tb1.hWnd.buttons = tb.hWnd.buttons ∧ tb1.changedHandlers = tb.changedHandlers ∧
    tb1.imageList = tb.imageList := by
  have hun := imageIndex_error_unchanged env tb tb1 action.image i err himg
  subst hun
  obtain ⟨g, hg⟩ := initButtonForAction_error env tb1 tb1 action ⟨0, 0, 0, none⟩ i err himg
  refine ⟨rfl, ?_, rfl, rfl, rfl, rfl, rfl⟩
  simp only [onInsertingAction, hg]

/-- Claim C9 at a concrete input: the strip refuses the image of the action, and
the insert handler returns the error with the toolbar untouched. -/
theorem onInsertingAction_image_failure_witness :
    onInsertingAction rejectAll { NewToolBar with imageList := some ⟨1, []⟩ } 0
        { plainAction 7 true with image := some 5 }
      = some (some (newError "ImageList_AddMasked failed"),
              { NewToolBar with imageList := some ⟨1, []⟩ }) :=
  (onInsertingAction_image_failure rejectAll { NewToolBar with imageList := some ⟨1, []⟩ }
    { NewToolBar with imageList := some ⟨1, []⟩ } 0 { plainAction 7 true with image := some 5 }
    0 (newError "ImageList_AddMasked failed") rfl).2.1

/-! ## removeAt and onClearingActions -/

/-- The list descending k (j+1) starts with j when k ≤ j. -/
theorem descending_succ (k j : Nat) (h : k ≤ j) : descending k (j + 1) = j :: descending k j := by
  unfold descending
  have h1 : j + 1 - k = (j - k) + 1 := by omega
  rw [h1, List.range'_concat, List.reverse_append]
  have h2 : k + 1 * (j - k) = j := by omega
  rw [h2]
  rfl

/-- The list descending j j is empty. -/
theorem descending_self (j : Nat) : descending j j = [] := by
  simp [descending]

/-- The result of removeAt at an index that holds an action. -/
theorem removeAt_eq (env : Env) (tb : ToolBar) (index : Nat) (action : Action)
    (hact : At tb index = some action) :
    removeAt env tb index = some
      (if 0 = sendResult env tb.hWnd .TB_DELETEBUTTON index (.value 0)
        then some (newError "SendMessage(TB_DELETEBUTTON) failed") else none,
       { removeChangedHandler tb action with
          hWnd := (SendMessage env tb.hWnd .TB_DELETEBUTTON index (.value 0)).2 }) := by
  simp only [removeAt, hact, SendMessage, removeChangedHandler]
  split <;> rfl

/-- One removeAt inside the action list: no panic, exactly one TB_DELETEBUTTON
with the index as wParam, the action list untouched; a rejected delete gives
the error and leaves the button array, an accepted one removes the button at
the index, which exists. -/
theorem removeAt_spec (env : Env) (tb : ToolBar) (index : Nat) (h : index < tb.actions.length) :
    ∃ err tb1 c, removeAt env tb index = some (err, tb1) ∧
      tb1.hWnd.calls = tb.hWnd.calls ++ [c] ∧ c.msg = .TB_DELETEBUTTON ∧ c.wParam = index ∧
      tb1.actions = tb.actions ∧
      ((c.result = 0 ∧ err = some (newError "SendMessage(TB_DELETEBUTTON) failed") ∧
          tb1.hWnd.buttons = tb.hWnd.buttons) ∨
       (c.result ≠ 0 ∧ err = none ∧ index < tb.hWnd.buttons.length ∧
          tb1.hWnd.buttons = tb.hWnd.buttons.eraseIdx index)) := by
  obtain ⟨action, hact⟩ : ∃ action, At tb index = some action := by
    unfold At
    exact ⟨tb.actions.get ⟨index, h⟩, List.get?_eq_get h⟩
  refine ⟨_, _, ⟨.TB_DELETEBUTTON, index, .value 0,
    sendResult env tb.hWnd .TB_DELETEBUTTON index (.value 0)⟩,
    removeAt_eq env tb index action hact, rfl, rfl, rfl, rfl, ?_⟩
  by_cases hr : sendResult env tb.hWnd .TB_DELETEBUTTON index (.value 0) = 0
  · left
    refine ⟨hr, ?_, ?_⟩
    · rw [if_pos hr.symm]
    · simp [SendMessage, hr]
  · right
    refine ⟨hr, ?_, ?_, ?_⟩
    · rw [if_neg (fun h0 => hr h0.symm)]
    · by_contra hlt
      apply hr
      simp [sendResult, hlt]
    · simp [SendMessage, hr, applyMsg]

/-- Removing the element at position i leaves the first m ≤ i elements. -/
theorem take_eraseIdx_of_le {α : Type} (l : List α) (i m : Nat) (h : m ≤ i) :
    (l.eraseIdx i).take m = l.take m := by
  induction l generalizing i m with
  | nil => simp
  | cons a t ih =>
    cases i with
    | zero =>
      have hm : m = 0 := by omega
      subst hm
      simp
    | succ i =>
      cases m with
      | zero => simp
      | succ m =>
        simp only [List.eraseIdx_cons_succ, List.take_succ_cons]
        rw [ih i m (by omega)]

/-- Removing the element at position i and dropping i elements is dropping
i + 1 elements. -/
theorem drop_eraseIdx_self {α : Type} (l : List α) (i : Nat) :
    (l.eraseIdx i).drop i = l.drop (i + 1) := by
  induction l generalizing i with
  | nil => simp
  | cons a t ih =>
    cases i with
    | zero => simp
    | succ i =>
      simp only [List.eraseIdx_cons_succ, List.drop_succ_cons]
      exact ih i

/-- The loop of onClearingActions from count j inside the action list: it does
not panic, sends only TB_DELETEBUTTON messages and leaves the action list;
either every delete is accepted, the indices are j-1, ..., 0, nil is returned
and the first j buttons are gone, or the delete at some k < j is the first one
rejected, the indices are j-1, ..., k, the error is returned and the buttons at
positions 0..k are in place. -/
theorem clearLoop_spec (env : Env) (j : Nat) : ∀ tb : ToolBar, j ≤ tb.actions.length →
    ∃ err tb1 new, clearLoop env tb j = some (err, tb1) ∧
      tb1.hWnd.calls = tb.hWnd.calls ++ new ∧ (∀ c ∈ new, c.msg = Msg.TB_DELETEBUTTON) ∧
      tb1.actions = tb.actions ∧
      ((err = none ∧ new.map Call.wParam = descending 0 j ∧ (∀ c ∈ new, c.result ≠ 0) ∧
          j ≤ tb.hWnd.buttons.length ∧ tb1.hWnd.buttons = tb.hWnd.buttons.drop j) ∨
       (∃ k oks bad, k < j ∧ err = some (newError "SendMessage(TB_DELETEBUTTON) failed") ∧
          new = oks ++ [bad] ∧ new.map Call.wParam = descending k j ∧
          (∀ c ∈ oks, c.result ≠ 0) ∧ bad.result = 0 ∧ bad.wParam = k ∧
          tb1.hWnd.buttons.take (k + 1) = tb.hWnd.buttons.take (k + 1))) := by
  induction j with
  | zero =>
    intro tb _
    refine ⟨none, tb, [], rfl, by simp, by simp, rfl, Or.inl ⟨rfl, ?_, by simp, by simp, by simp⟩⟩
    simp [descending]
  | succ j ih =>
    intro tb hj
    obtain ⟨err, tb1, c, hrem, hcalls, hmsg, hw, hact, hcase⟩ :=
      removeAt_spec env tb j (by omega)
    rcases hcase with ⟨hres, herr, hbut⟩ | ⟨hres, herr, hlt, hbut⟩
    · subst herr
      refine ⟨_, tb1, [c], ?_, hcalls, ?_, hact, Or.inr ⟨j, [], c, by omega, rfl, rfl, ?_, ?_,
        hres, hw, ?_⟩⟩
      · simp only [clearLoop, hrem]
      · intro d hd
        simp only [List.mem_singleton] at hd
        subst hd
        exact hmsg
      · rw [descending_succ j j (le_refl j), descending_self]
        simp [hw]
      · simp
      · rw [hbut]
    · subst herr
      obtain ⟨err2, tb2, new, hloop, hcalls2, hmsgs, hact2, hcase2⟩ := ih tb1 (by rw [hact]; omega)
      have hstep : clearLoop env tb (j + 1) = some (err2, tb2) := by
        simp only [clearLoop, hrem]
        exact hloop
      have hall : ∀ d ∈ c :: new, d.msg = Msg.TB_DELETEBUTTON := by
        intro d hd
        rcases List.mem_cons.mp hd with h1 | h1
        · subst h1
          exact hmsg
        · exact hmsgs d h1
      refine ⟨err2, tb2, c :: new, hstep, ?_, hall, hact2.trans hact, ?_⟩
      · rw [hcalls2, hcalls]
        simp
      · rcases hcase2 with ⟨he, hidx, hok, hle, hb⟩ | ⟨k, oks, bad, hk, he, hnew, hidx, hok, hbad, hbk, hb⟩
        · left
          refine ⟨he, ?_, ?_, by omega, ?_⟩
          · rw [descending_succ 0 j (Nat.zero_le j)]
            simp [hw, hidx]
          · intro d hd
            rcases List.mem_cons.mp hd with h1 | h1
            · subst h1
              exact hres
            · exact hok d h1
          · rw [hb, hbut, drop_eraseIdx_self]
        · right
          refine ⟨k, c :: oks, bad, by omega, he, ?_, ?_, ?_, hbad, hbk, ?_⟩
          · rw [hnew]
            rfl
          · rw [descending_succ k j (by omega)]
            simp [hw, hidx]
          · intro d hd
            rcases List.mem_cons.mp hd with h1 | h1
            · subst h1
              exact hres
            · exact hok d h1
          · rw [hb, hbut, take_eraseIdx_of_le _ j (k + 1) (by omega)]

/-- Membership in descending k n. -/
theorem mem_descending (i k n : Nat) : i ∈ descending k n ↔ k ≤ i ∧ i < n := by
  simp only [descending, List.mem_reverse, List.mem_range'_1]
  omega

/-- Claim C3: with n = Len() actions, onClearingActions sends TB_DELETEBUTTON
with the indices n-1, n-2, ... in descending order and stops at the first
failure. Either every delete is accepted, the recorded indices are exactly
n-1, ..., 0 and nil is returned; or the delete at some index k is the first one
rejected, the recorded indices are exactly n-1, ..., k, that error is returned,
no delete is sent for an index below k, and the buttons at positions 0..k (and
the action list) are as they were. -/
theorem onClearingActions_descending_until_failure (env : Env) (tb : ToolBar) :
    ∃ err tb1 new, onClearingActions env tb = some (err, tb1) ∧
      tb1.hWnd.calls = tb.hWnd.calls ++ new ∧ (∀ c ∈ new, c.msg = Msg.TB_DELETEBUTTON) ∧
      tb1.actions = tb.actions ∧
      ((err = none ∧ new.map Call.wParam = descending 0 (Len tb) ∧ (∀ c ∈ new, c.result ≠ 0)) ∨
       (∃ k oks bad, k < Len tb ∧
          err = some (newError "SendMessage(TB_DELETEBUTTON) failed") ∧
          new = oks ++ [bad] ∧ new.map Call.wParam = descending k (Len tb) ∧
          (∀ c ∈ oks, c.result ≠ 0) ∧ bad.result = 0 ∧ bad.wParam = k ∧
          (∀ c ∈ new, k ≤ c.wParam) ∧
          tb1.hWnd.buttons.take (k + 1) = tb.hWnd.buttons.take (k + 1))) := by
  obtain ⟨err, tb1, new, hrun, hcalls, hmsgs, hact, hcase⟩ :=
    clearLoop_spec env (Len tb) tb (le_refl _)
  refine ⟨err, tb1, new, hrun, hcalls, hmsgs, hact, ?_⟩
  rcases hcase with ⟨he, hidx, hok, -, -⟩ | ⟨k, oks, bad, hk, he, hnew, hidx, hok, hbad, hbk, hb⟩
  · exact Or.inl ⟨he, hidx, hok⟩
  · refine Or.inr ⟨k, oks, bad, hk, he, hnew, hidx, hok, hbad, hbk, ?_, hb⟩
    intro c hc
    have hmem : c.wParam ∈ new.map Call.wParam := List.mem_map_of_mem _ hc
    rw [hidx] at hmem
    exact ((mem_descending _ _ _).mp hmem).1

/-- Claim C3 at a concrete input: three actions, the control rejects the delete
at index 1: deletes are sent for 2 and then 1, none for 0, the error is
returned and the buttons at positions 0 and 1 stay. -/
theorem onClearingActions_stops_at_first_failure :
    ∃ tb1, onClearingActions (rejectDeleteAt 1)
        { NewToolBar with
            actions := [plainAction 1 true, plainAction 2 true, plainAction 3 true]
            hWnd := { NewToolBar.hWnd with buttons := [1, 2, 3] } }
      = some (some (newError "SendMessage(TB_DELETEBUTTON) failed"), tb1) ∧
      tb1.hWnd.calls = [⟨.TB_DELETEBUTTON, 2, .value 0, 1⟩, ⟨.TB_DELETEBUTTON, 1, .value 0, 0⟩] ∧
      tb1.hWnd.buttons = [1, 2] := by
  refine ⟨_, rfl, ?_, ?_⟩
  · decide
  · decide

/-! ## SendMessage -/

/-- A message is recorded after the earlier ones, with its result. -/
theorem SendMessage_calls (env : Env) (w : Window) (msg : Msg) (wParam : Nat) (lParam : LParam) :
    (SendMessage env w msg wParam lParam).2.calls =
      w.calls ++ [⟨msg, wParam, lParam, (SendMessage env w msg wParam lParam).1⟩] := rfl

/-- A message changes neither the style nor the visibility of the window. -/
theorem SendMessage_style_visible (env : Env) (w : Window) (msg : Msg) (wParam : Nat)
    (lParam : LParam) :
    (SendMessage env w msg wParam lParam).2.style = w.style ∧
    (SendMessage env w msg wParam lParam).2.visible = w.visible := ⟨rfl, rfl⟩

/-- A rejected message leaves the button array. -/
theorem SendMessage_buttons_of_zero (env : Env) (w : Window) (msg : Msg) (wParam : Nat)
    (lParam : LParam) (h : (SendMessage env w msg wParam lParam).1 = 0) :
    (SendMessage env w msg wParam lParam).2.buttons = w.buttons := by
  simp only [SendMessage] at h
  simp [SendMessage, h]

/-- The message TB_BUTTONSTRUCTSIZE leaves the button array. -/
theorem SendMessage_buttons_structsize (env : Env) (w : Window) (wParam : Nat) (lParam : LParam) :
    (SendMessage env w .TB_BUTTONSTRUCTSIZE wParam lParam).2.buttons = w.buttons := by
  simp only [SendMessage, applyMsg]
  split <;> rfl

/-- The message TB_AUTOSIZE leaves the button array. -/
theorem SendMessage_buttons_autosize (env : Env) (w : Window) (wParam : Nat) (lParam : LParam) :
    (SendMessage env w .TB_AUTOSIZE wParam lParam).2.buttons = w.buttons := by
  simp only [SendMessage, applyMsg]
  split <;> rfl

/-- An accepted TB_ADDBUTTONS for one button appends its command id after the
last button. -/
theorem SendMessage_buttons_addbuttons (env : Env) (w : Window) (tbb : TBBUTTON)
    (h : (SendMessage env w .TB_ADDBUTTONS 1 (.tbbuttons [tbb])).1 ≠ 0) :
    (SendMessage env w .TB_ADDBUTTONS 1 (.tbbuttons [tbb])).2.buttons =
      w.buttons ++ [tbb.IdCommand] := by
  simp only [SendMessage] at h
  simp [SendMessage, h, applyMsg]

/-! ## onInsertingAction -/

/-- The result of onInsertingAction when the image of the action resolves. -/
theorem onInsertingAction_eq (env : Env) (tb tb1 : ToolBar) (index : Nat) (action : Action)
    (image : Int) (himg : imageIndex env tb action.image = some ((image, none), tb1)) :
    onInsertingAction env tb index action =
      if FALSE = (SendMessage env
          (SendMessage env { tb1.hWnd with visible := true } .TB_BUTTONSTRUCTSIZE
            env.sizeofTBBUTTON (.value 0)).2
          .TB_ADDBUTTONS 1 (.tbbuttons [⟨image, (action.id : Int),
            specState (decide (Vertical tb)) action, specStyle (decide (Vertical tb)) action,
            some action.Text⟩])).1
      then some (some (newError "SendMessage(TB_ADDBUTTONS)"),
        { tb1 with hWnd := (SendMessage env
          (SendMessage env { tb1.hWnd with visible := true } .TB_BUTTONSTRUCTSIZE
            env.sizeofTBBUTTON (.value 0)).2
          .TB_ADDBUTTONS 1 (.tbbuttons [⟨image, (action.id : Int),
            specState (decide (Vertical tb)) action, specStyle (decide (Vertical tb)) action,
            some action.Text⟩])).2 })
      else some (none, addChangedHandler
        { tb1 with hWnd := (SendMessage env (SendMessage env
          (SendMessage env { tb1.hWnd with visible := true } .TB_BUTTONSTRUCTSIZE
            env.sizeofTBBUTTON (.value 0)).2
          .TB_ADDBUTTONS 1 (.tbbuttons [⟨image, (action.id : Int),
            specState (decide (Vertical tb)) action, specStyle (decide (Vertical tb)) action,
            some action.Text⟩])).2 .TB_AUTOSIZE 0 (.value 0)).2 } action) := by
  have hinit := initButtonForAction_ok env tb tb1 action 0 image none himg
  simp only [onInsertingAction, hinit, SetVisible]

/-- What onInsertingAction does when it returns: the action list is untouched
and messages are only added to the log; on nil the command id of the action is
appended after the last button of the native array, the control is visible and
the toolbar is subscribed to the action; on an error the button array is
unchanged. -/
theorem onInsertingAction_spec (env : Env) (tb tb2 : ToolBar) (index : Nat) (action : Action)
    (err : Option Error) (h : onInsertingAction env tb index action = some (err, tb2)) :
    tb2.actions = tb.actions ∧ (∃ new, tb2.hWnd.calls = tb.hWnd.calls ++ new) ∧
    (err = none → tb2.hWnd.buttons = tb.hWnd.buttons ++ [(action.id : Int)] ∧
      tb2.hWnd.visible = true ∧ tb2.changedHandlers = action.id :: tb.changedHandlers) ∧
    (err ≠ none → tb2.hWnd.buttons = tb.hWnd.buttons) := by
  cases himg : imageIndex env tb action.image with
  | none =>
    simp [onInsertingAction, initButtonForAction, himg] at h
  | some res =>
    obtain ⟨⟨i, e⟩, tb1⟩ := res
    cases e with
    | some e =>
      have hun := imageIndex_error_unchanged env tb tb1 action.image i e himg
      obtain ⟨g, hg⟩ := initButtonForAction_error env tb tb1 action ⟨0, 0, 0, none⟩ i e himg
      simp only [onInsertingAction, hg, Option.some.injEq, Prod.mk.injEq] at h
      obtain ⟨rfl, rfl⟩ := h
      subst hun
      exact ⟨rfl, ⟨[], by simp⟩, by simp, fun _ => rfl⟩
    | none =>
      obtain ⟨hw, hact, -, -, hch⟩ := imageIndex_frame env tb tb1 action.image _ himg
      rw [onInsertingAction_eq env tb tb1 index action i himg] at h
      split at h
      · rename_i hr
        simp only [Option.some.injEq, Prod.mk.injEq] at h
        obtain ⟨rfl, rfl⟩ := h
        have hcalls : ∃ new, (SendMessage env
            (SendMessage env { tb1.hWnd with visible := true } .TB_BUTTONSTRUCTSIZE
              env.sizeofTBBUTTON (.value 0)).2
            .TB_ADDBUTTONS 1 (.tbbuttons [⟨i, (action.id : Int),
              specState (decide (Vertical tb)) action, specStyle (decide (Vertical tb)) action,
              some action.Text⟩])).2.calls = tb.hWnd.calls ++ new := by
          simp only [SendMessage_calls, hw, List.append_assoc]
          exact ⟨_, rfl⟩
        refine ⟨hact, hcalls, by simp, fun _ => ?_⟩
        · simp only [FALSE] at hr
          simp only []
          rw [SendMessage_buttons_of_zero _ _ _ _ _ hr.symm, SendMessage_buttons_structsize, hw]
      · rename_i hr
        simp only [Option.some.injEq, Prod.mk.injEq] at h
        obtain ⟨rfl, rfl⟩ := h
        have hcalls : ∃ new, (SendMessage env (SendMessage env
            (SendMessage env { tb1.hWnd with visible := true } .TB_BUTTONSTRUCTSIZE
              env.sizeofTBBUTTON (.value 0)).2
            .TB_ADDBUTTONS 1 (.tbbuttons [⟨i, (action.id : Int),
              specState (decide (Vertical tb)) action, specStyle (decide (Vertical tb)) action,
              some action.Text⟩])).2 .TB_AUTOSIZE 0 (.value 0)).2.calls = tb.hWnd.calls ++ new := by
          simp only [SendMessage_calls, hw, List.append_assoc]
          exact ⟨_, rfl⟩
        refine ⟨hact, hcalls, fun _ => ⟨?_, rfl, ?_⟩, by simp⟩
        · have hr2 : ∀ x : Nat, ¬ FALSE = x → x ≠ 0 := fun x hx h0 => hx (by rw [h0]; rfl)
          simp only [addChangedHandler]
          rw [SendMessage_buttons_autosize, SendMessage_buttons_addbuttons _ _ _ (hr2 _ hr),
            SendMessage_buttons_structsize, hw]
        · simp only [addChangedHandler, hch]

/-! ## The number of native buttons -/

/-- One operation on the action list only adds messages to the log, and when
every message it sent was accepted it keeps the number of native buttons equal
to the number of actions. -/
theorem applyOp_count (env : Env) (tb tb2 : ToolBar) (op : Op) (err : Option Error)
    (h : applyOp env tb op = some (err, tb2)) :
    ∃ new, tb2.hWnd.calls = tb.hWnd.calls ++ new ∧
      ((∀ c ∈ new, c.result ≠ 0) → tb.hWnd.buttons.length = tb.actions.length →
        tb2.hWnd.buttons.length = tb2.actions.length) := by
  cases op with
  | Insert index action =>
    simp only [applyOp, ActionList.Insert] at h
    cases hins : onInsertingAction env tb index action with
    | none => simp [hins] at h
    | some res =>
      obtain ⟨e, tb1⟩ := res
      obtain ⟨hact, ⟨new, hnew⟩, hok, hfail⟩ := onInsertingAction_spec env tb tb1 index action e hins
      cases e with
      | some e =>
        simp only [hins, Option.some.injEq, Prod.mk.injEq] at h
        obtain ⟨-, rfl⟩ := h
        refine ⟨new, hnew, fun _ hinv => ?_⟩
        rw [hfail (by simp), hact]
        exact hinv
      | none =>
        simp only [hins] at h
        split at h
        · rename_i hle
          simp only [Option.some.injEq, Prod.mk.injEq] at h
          obtain ⟨-, rfl⟩ := h
          refine ⟨new, hnew, fun _ hinv => ?_⟩
          simp only []
          rw [(hok rfl).1, List.length_insertIdx _ _ hle, hact]
          simp [hinv]
        · simp at h
  | RemoveAt index =>
    simp only [applyOp, ActionList.RemoveAt, onRemovingAction] at h
    cases hget : tb.actions.get? index with
    | none =>
      simp only [hget] at h
      exact absurd h (by simp)
    | some action =>
      have hlt : index < tb.actions.length := by
        obtain ⟨hlt, -⟩ := List.get?_eq_some.mp hget
        exact hlt
      obtain ⟨e, tb1, c, hrem, hcalls, -, -, hact, hcase⟩ := removeAt_spec env tb index hlt
      simp only [hget, hrem] at h
      rcases hcase with ⟨-, he, hbut⟩ | ⟨-, he, hblt, hbut⟩
      · subst he
        simp only [Option.some.injEq, Prod.mk.injEq] at h
        obtain ⟨-, rfl⟩ := h
        refine ⟨[c], hcalls, fun _ hinv => ?_⟩
        rw [hbut, hact]
        exact hinv
      · subst he
        simp only [Option.some.injEq, Prod.mk.injEq] at h
        obtain ⟨-, rfl⟩ := h
        refine ⟨[c], hcalls, fun _ hinv => ?_⟩
        simp only []
        rw [hbut, hact, List.length_eraseIdx_of_lt hblt, List.length_eraseIdx_of_lt hlt, hinv]
  | Clear =>
    simp only [applyOp, ActionList.Clear, onClearingActions] at h
    obtain ⟨e, tb1, new, hrun, hcalls, -, hact, hcase⟩ :=
      clearLoop_spec env (Len tb) tb (le_refl _)
    simp only [hrun] at h
    rcases hcase with ⟨he, -, -, hle, hbut⟩ | ⟨k, oks, bad, -, he, hnew, -, -, hbad, -, -⟩
    · subst he
      simp only [Option.some.injEq, Prod.mk.injEq] at h
      obtain ⟨-, rfl⟩ := h
      refine ⟨new, hcalls, fun _ hinv => ?_⟩
      simp only [Len] at hbut
      simp [hbut, hinv]
    · subst he
      simp only [Option.some.injEq, Prod.mk.injEq] at h
      obtain ⟨-, rfl⟩ := h
      refine ⟨new, hcalls, fun hall _ => ?_⟩
      exact absurd hbad (hall bad (by simp [hnew]))

/-- A run of operations only adds messages to the log, and when every message
it sent was accepted it keeps the number of native buttons equal to the number
of actions. -/
theorem applyOps_count (env : Env) (ops : List Op) : ∀ tb tb2 : ToolBar,
    applyOps env tb ops = some tb2 →
    ∃ new, tb2.hWnd.calls = tb.hWnd.calls ++ new ∧
      ((∀ c ∈ new, c.result ≠ 0) → tb.hWnd.buttons.length = tb.actions.length →
        tb2.hWnd.buttons.length = tb2.actions.length) := by
  induction ops with
  | nil =>
    intro tb tb2 h
    simp only [applyOps, Option.some.injEq] at h
    subst h
    exact ⟨[], by simp, fun _ hinv => hinv⟩
  | cons op ops ih =>
    intro tb tb2 h
    simp only [applyOps] at h
    cases hop : applyOp env tb op with
    | none => simp [hop] at h
    | some res =>
      obtain ⟨e, tb1⟩ := res
      simp only [hop] at h
      obtain ⟨new1, hc1, hinv1⟩ := applyOp_count env tb tb1 op e hop
      obtain ⟨new2, hc2, hinv2⟩ := ih tb1 tb2 h
      refine ⟨new1 ++ new2, by rw [hc2, hc1, List.append_assoc], fun hall hinv => ?_⟩
      apply hinv2
      · intro c hc
        exact hall c (List.mem_append_right _ hc)
      · apply hinv1 _ hinv
        intro c hc
        exact hall c (List.mem_append_left _ hc)

/-- A run of two sequences, one after the other, is the run of the first
followed by the run of the second. -/
theorem applyOps_append (env : Env) (ops1 ops2 : List Op) : ∀ tb tb2 : ToolBar,
    applyOps env tb (ops1 ++ ops2) = some tb2 →
    ∃ tb1, applyOps env tb ops1 = some tb1 ∧ applyOps env tb1 ops2 = some tb2 := by
  induction ops1 with
  | nil =>
    intro tb tb2 h
    exact ⟨tb, rfl, h⟩
  | cons op ops ih =>
    intro tb tb2 h
    simp only [List.cons_append, applyOps] at h ⊢
    cases hop : applyOp env tb op with
    | none => simp [hop] at h
    | some res =>
      simp only [hop] at h ⊢
      exact ih res.2 tb2 h

/-- Claim C2: start from a toolbar without actions and without native buttons
and run any finite sequence of insert, remove and clear operations on its
action list. If the run does not panic and every message sent to the control
during the run was accepted, then after each operation, that is after every
initial part ops1 of the sequence, the number of native buttons equals the
length of the action list. -/
theorem buttons_count_eq_Len (env : Env) (tb0 tb : ToolBar) (ops1 ops2 : List Op)
    (hactions : tb0.actions = []) (hbuttons : tb0.hWnd.buttons = [])
    (hrun : applyOps env tb0 (ops1 ++ ops2) = some tb)
    (hok : ∀ c ∈ tb.hWnd.calls.drop tb0.hWnd.calls.length, c.result ≠ 0) :
    ∃ tb1, applyOps env tb0 ops1 = some tb1 ∧ tb1.hWnd.buttons.length = Len tb1 := by
  obtain ⟨tb1, hrun1, hrun2⟩ := applyOps_append env ops1 ops2 tb0 tb hrun
  obtain ⟨new1, hcalls1, hinv⟩ := applyOps_count env ops1 tb0 tb1 hrun1
  obtain ⟨new2, hcalls2, -⟩ := applyOps_count env ops2 tb1 tb hrun2
  rw [hcalls2, hcalls1, List.append_assoc, List.drop_left] at hok
  refine ⟨tb1, hrun1, hinv ?_ (by simp [hactions, hbuttons])⟩
  intro c hc
  exact hok c (List.mem_append_left _ hc)

/-- Claim C2 at a concrete input: six operations on a new toolbar, every
message accepted; after the first four there are two actions and two native
buttons. -/
theorem buttons_count_eq_Len_witness :
    ∃ tb1, applyOps acceptAll NewToolBar
        [.Insert 0 (plainAction 1 true), .Insert 0 (plainAction 2 true), .RemoveAt 0,
         .Insert 1 (plainAction 3 false)] = some tb1 ∧
      tb1.hWnd.buttons.length = Len tb1 ∧ Len tb1 = 2 := by
  obtain ⟨tb1, h1, h2⟩ := buttons_count_eq_Len acceptAll NewToolBar
    ((applyOps acceptAll NewToolBar
      [.Insert 0 (plainAction 1 true), .Insert 0 (plainAction 2 true), .RemoveAt 0,
       .Insert 1 (plainAction 3 false), .Clear, .Insert 0 (plainAction 4 true)]).getD NewToolBar)
    [.Insert 0 (plainAction 1 true), .Insert 0 (plainAction 2 true), .RemoveAt 0,
     .Insert 1 (plainAction 3 false)]
    [.Clear, .Insert 0 (plainAction 4 true)]
    rfl rfl rfl (by decide)
  refine ⟨tb1, h1, h2, ?_⟩
  have h3 : applyOps acceptAll NewToolBar
      [.Insert 0 (plainAction 1 true), .Insert 0 (plainAction 2 true), .RemoveAt 0,
       .Insert 1 (plainAction 3 false)] = some tb1 := h1
  have h4 : (applyOps acceptAll NewToolBar
      [.Insert 0 (plainAction 1 true), .Insert 0 (plainAction 2 true), .RemoveAt 0,
       .Insert 1 (plainAction 3 false)]).map Len = some 2 := by decide
  rw [h3] at h4
  simpa using h4

/-- The example of section 8 of the specification: actions 1 and 2 are added to
a Horizontal toolbar without images and the list is cleared. Two TB_ADDBUTTONS
with image index -1, autosize style and no wrap state, each followed by one
TB_AUTOSIZE, then TB_DELETEBUTTON for index 1 and for index 0. -/
theorem insert_insert_clear_example :
    (applyOps acceptAll NewToolBar
        [.Insert 0 (plainAction 1 true), .Insert 1 (plainAction 2 true), .Clear]).map
      (fun tb => (tb.hWnd.calls.map (fun c => (c.msg, c.wParam, c.lParam)), tb.hWnd.buttons,
        tb.actions)) =
    some ([(.TB_BUTTONSTRUCTSIZE, 20, .value 0),
           (.TB_ADDBUTTONS, 1, .tbbuttons [⟨-1, 1, TBSTATE_ENABLED, BTNS_AUTOSIZE, some "a"⟩]),
           (.TB_AUTOSIZE, 0, .value 0),
           (.TB_BUTTONSTRUCTSIZE, 20, .value 0),
           (.TB_ADDBUTTONS, 1, .tbbuttons [⟨-1, 2, TBSTATE_ENABLED, BTNS_AUTOSIZE, some "a"⟩]),
           (.TB_AUTOSIZE, 0, .value 0),
           (.TB_DELETEBUTTON, 1, .value 0),
           (.TB_DELETEBUTTON, 0, .value 0)], [], []) := by
  decide

/-! ## The position of an inserted button -/

/-- An insert at the end keeps the native array index-isomorphic to the action
list: the appended button is the one of the last action. -/
theorem onInsertingAction_at_end (env : Env) (tb tb1 : ToolBar) (action : Action)
    (hiso : indexIsomorphic tb)
    (h : onInsertingAction env tb (Len tb) action = some (none, tb1)) :
    indexIsomorphic { tb1 with actions := tb1.actions.insertIdx (Len tb) action } := by
  obtain ⟨hact, -, hok, -⟩ := onInsertingAction_spec env tb tb1 (Len tb) action none h
  unfold indexIsomorphic at hiso ⊢
  simp only [Len]
  rw [(hok rfl).1, hact, hiso, List.insertIdx_length_self]
  simp

/-- Claim C1, evaluated where it fails: the toolbar holds one action with id 1
and the native array is [1]; onInsertingAction(0, action with id 2) succeeds
and the native array becomes [1, 2], the new button after the old one, while
the list with the action inserted at index 0 has the ids [2, 1]: the two are
no longer index-isomorphic, and a following RemoveAt(0) takes action 2 out of
the list and the button of action 1 out of the control. -/
theorem onInsertingAction_ignores_index :
    indexIsomorphic { NewToolBar with
        actions := [plainAction 1 true]
        hWnd := { NewToolBar.hWnd with buttons := [1] } } ∧
    ∃ tb1, onInsertingAction acceptAll
        { NewToolBar with
            actions := [plainAction 1 true]
            hWnd := { NewToolBar.hWnd with buttons := [1] } } 0 (plainAction 2 true)
        = some (none, tb1) ∧
      tb1.hWnd.buttons = [1, 2] ∧
      (tb1.actions.insertIdx 0 (plainAction 2 true)).map (fun a => (a.id : Int)) = [2, 1] ∧
      ¬ indexIsomorphic { tb1 with actions := tb1.actions.insertIdx 0 (plainAction 2 true) } ∧
      ∃ tb2, ActionList.RemoveAt acceptAll
          { tb1 with actions := tb1.actions.insertIdx 0 (plainAction 2 true) } 0 = some (none, tb2) ∧
        tb2.actions.map (fun a => (a.id : Int)) = [1] ∧ tb2.hWnd.buttons = [2] := by
  refine ⟨by decide, _, rfl, by decide, by decide, by decide, _, rfl, by decide, by decide⟩

/-! ## The stored width limits -/

/-- After any sequence of SetButtonWidthLimits calls the stored pair is the one
stored at the start or the arguments of one of the calls. -/
theorem applyLimits_mem (env : Env) (calls : List (Nat × Nat)) : ∀ tb : ToolBar,
    ButtonWidthLimits (applyLimits env tb calls) = ButtonWidthLimits tb ∨
    ButtonWidthLimits (applyLimits env tb calls) ∈ calls := by
  induction calls with
  | nil =>
    intro tb
    exact Or.inl rfl
  | cons c rest ih =>
    intro tb
    obtain ⟨min, max⟩ := c
    simp only [applyLimits]
    obtain ⟨-, -, hfail, hsucc⟩ := SetButtonWidthLimits_outcome env tb min max
    rcases ih (SetButtonWidthLimits env tb min max).2 with h | h
    · by_cases he : (SetButtonWidthLimits env tb min max).1 = none
      · right
        rw [h, hsucc he]
        exact List.mem_cons_self _ _
      · left
        rw [h, hfail he]
    · right
      exact List.mem_cons_of_mem _ h

/-- Claim C10, at the input where it fails: on a new toolbar, an accepted
SetButtonWidthLimits(5, 3) stores min = 5 and max = 3: both set, min > max. -/
theorem stored_limits_inverted :
    (applyLimits acceptAll NewToolBar [(5, 3)]).minButtonWidth ≠ 0 ∧
    (applyLimits acceptAll NewToolBar [(5, 3)]).maxButtonWidth ≠ 0 ∧
    ¬ (applyLimits acceptAll NewToolBar [(5, 3)]).minButtonWidth ≤
      (applyLimits acceptAll NewToolBar [(5, 3)]).maxButtonWidth := by
  decide

/-- Claim C10, amended: in every state reached from a newly constructed toolbar
by SetButtonWidthLimits calls whose arguments satisfy min ≤ max, whatever the
control accepts or rejects, the stored limits satisfy min ≤ max. -/
theorem stored_limits_ordered (env : Env) (style : Nat) (calls : List (Nat × Nat))
    (hargs : ∀ c ∈ calls, c.1 ≤ c.2) :
    (applyLimits env (newToolBar style) calls).minButtonWidth ≤
      (applyLimits env (newToolBar style) calls).maxButtonWidth := by
  rcases applyLimits_mem env calls (newToolBar style) with h | h
  · have h1 := congrArg Prod.fst h
    have h2 := congrArg Prod.snd h
    have h3 : (applyLimits env (newToolBar style) calls).minButtonWidth = 0 := h1
    have h4 : (applyLimits env (newToolBar style) calls).maxButtonWidth = 0 := h2
    omega
  · exact hargs _ h

/-- Claim C10, amended, at a concrete input: the calls (10, 50) and (20, 30),
both accepted, leave the limits (20, 30). -/
theorem stored_limits_ordered_witness :
    ButtonWidthLimits (applyLimits acceptAll (newToolBar TBSTYLE_WRAPABLE) [(10, 50), (20, 30)])
      = (20, 30) ∧
    (applyLimits acceptAll (newToolBar TBSTYLE_WRAPABLE) [(10, 50), (20, 30)]).minButtonWidth ≤
      (applyLimits acceptAll (newToolBar TBSTYLE_WRAPABLE) [(10, 50), (20, 30)]).maxButtonWidth :=
  ⟨by decide, stored_limits_ordered acceptAll TBSTYLE_WRAPABLE [(10, 50), (20, 30)] (by decide)⟩

end Walk
